import Mathlib

/-!
Shallow embedding of `peppi/src/unparse.rs`, the version-aware binary encoder
that turns an in-memory game model back into the Slippi wire format.

Bytes are modelled as `Nat` values below 256, byte streams as `List Nat`.
32-bit floats never undergo arithmetic in the encoder (they are only copied to
the sink), so every `f32` field is modelled as the `Nat` bit pattern of the
float and `write_f32::<BE>` emits its four bytes most-significant first.
Fallible operations (`panic!`, `assert_eq!`, `Option::unwrap`, `PortId::new`)
are modelled with `Except EncodeError`.
-/

namespace Peppi

abbrev Byte := Nat

/-- Big-endian bytes of a `u16` value. -/
def be16 (n : Nat) : List Byte := [n / 2 ^ 8 % 2 ^ 8, n % 2 ^ 8]

/-- Big-endian bytes of a `u32` value (also used for `f32` bit patterns). -/
def be32 (n : Nat) : List Byte :=
  [n / 2 ^ 24 % 2 ^ 8, n / 2 ^ 16 % 2 ^ 8, n / 2 ^ 8 % 2 ^ 8, n % 2 ^ 8]

/-- Big-endian bytes of an `i32` value (two's complement). -/
def beI32 (n : Int) : List Byte := be32 (n % 2 ^ 32).toNat

/-- `write_u8`: a `u8` value as one byte. -/
def u8 (n : Nat) : Byte := n % 2 ^ 8

/-- `write_i8`: an `i8` value as one two's-complement byte. -/
def i8b (n : Int) : Byte := (n % 2 ^ 8).toNat

/-- A Rust `bool as u8` cast. -/
def b8 (b : Bool) : Byte := if b then 1 else 0

/-- The first five bytes of the little-endian 8-byte buffer holding a `u64`
(`frame_post`'s flag-bitfield quirk). -/
def le40 (n : Nat) : List Byte :=
  [n % 2 ^ 8, n / 2 ^ 8 % 2 ^ 8, n / 2 ^ 16 % 2 ^ 8, n / 2 ^ 24 % 2 ^ 8, n / 2 ^ 32 % 2 ^ 8]

/-- A Rust slice `&u[a..b]` of a byte array (in the source the arrays have a
fixed length covering every slice taken). -/
def slice (u : List Byte) (a b : Nat) : List Byte := (u.drop a).take (b - a)

/-- `slippi::Version(u8, u8, u8)`, ordered lexicographically (derived `Ord`). -/
structure Version where
  major : Nat
  minor : Nat
  revision : Nat
deriving DecidableEq

/-- The `version(major, minor)` helper from `unparse.rs`. -/
def version (major minor : Nat) : Version := Version.mk major minor 0

/-- Lexicographic `>=` on version triples (Rust derived `Ord`). -/
def Version.ge (v t : Version) : Bool :=
  decide (t.major < v.major ∨ (t.major = v.major ∧
    (t.minor < v.minor ∨ (t.minor = v.minor ∧ t.revision ≤ v.revision))))

theorem Version.ge_iff (v t : Version) :
    Version.ge v t = true ↔
      (t.major < v.major ∨ (t.major = v.major ∧
        (t.minor < v.minor ∨ (t.minor = v.minor ∧ t.revision ≤ v.revision)))) := by
  simp [Version.ge]

/-- The event kinds of `parse::Event`. -/
inductive Event where
  | GameStart
  | FramePre
  | FramePost
  | GameEnd
  | FrameStart
  | Item
  | FrameEnd
deriving DecidableEq

/-- Modelled from the spec: the 1-byte event codes of the wire format
(`parse::Event` discriminants; `parse.rs` is not part of the provided source). -/
def Event.code : Event → Byte
  | .GameStart => 0x36
  | .FramePre => 0x37
  | .FramePost => 0x38
  | .GameEnd => 0x39
  | .FrameStart => 0x3a
  | .Item => 0x3b
  | .FrameEnd => 0x3c

/-- Modelled from the spec: the tag byte of the payload-sizes meta-event
(`parse::PAYLOADS_EVENT_CODE`; `parse.rs` is not part of the provided source). -/
def PAYLOADS_EVENT_CODE : Byte := 0x35

/-- Modelled from the spec: `game::NUM_PORTS`, the number of simultaneous
ports (1-4, so four port slots; `game.rs` is not part of the provided source). -/
def NUM_PORTS : Nat := 4

/-- Modelled from the spec: `game::MAX_PLAYERS`, the number of player slots
reserved in the session-start player array (`game.rs` is not part of the
provided source). -/
def MAX_PLAYERS : Nat := 6

/-- Modelled from the spec: `game::FIRST_FRAME_INDEX`, the fixed first-frame
index (`game.rs` is not part of the provided source). -/
def FIRST_FRAME_INDEX : Int := -123

/-- The contents of the `HashMap` built by `payload_sizes` in `unparse.rs`:
the size each event kind is mapped to (`none` when absent from the map).
NOTE: the source inserts fixed sizes for every event kind, ignoring `_ver`
(the `TODO: write version-dependent sizes` comment marks this). -/
def payload_sizes (_ver : Version) : Event → Option Nat
  | .GameStart => some 420
  | .FramePre => some 63
  | .FramePost => some 72
  | .GameEnd => some 2
  | .FrameStart => some 8
  | .Item => some 42
  | .FrameEnd => some 8

/-- The keys inserted into the `payload_sizes` map, in insertion order.
A Rust `HashMap` iterates its entries in an unspecified order, so the
serialization order of these keys is a parameter of `unparse` below. -/
def payloadKeys : List Event :=
  [.GameStart, .FramePre, .FramePost, .GameEnd, .FrameStart, .Item, .FrameEnd]

/-- The ways an encode can abort (panics / errors in the source). -/
inductive EncodeError where
  /-- `write_shift_jis`'s `panic!` when a text field exceeds its byte budget. -/
  | textOverflow (label : String)
  /-- `Option::unwrap` on a missing version-gated field. -/
  | missingField
  /-- `assert_eq!(ver, s.slippi.version)` failing in `game_start`. -/
  | versionMismatch
  /-- `PortId::new` rejecting an out-of-range port. -/
  | portOverflow
deriving DecidableEq

/-- `Option::unwrap`, with the panic modelled as an error. -/
def unwrapO {α : Type} : Option α → Except EncodeError α
  | some a => .ok a
  | none => .error .missingField

/-- `write_shift_jis`: text fields are modelled as their already
SHIFT_JIS-encoded byte sequences (the encoding itself lives in the external
`encoding_rs` crate); the source checks the encoded length against the budget
before writing anything, then zero-pads to exactly the budget. -/
def write_shift_jis (s : List Byte) (max_size : Nat) (label : String) :
    Except EncodeError (List Byte) :=
  if s.length > max_size then .error (.textOverflow label)
  else .ok (s ++ List.replicate (max_size - s.length) 0)

/-- A pair of `f32` bit patterns (positions, sticks, velocities). -/
structure Vec2 where
  x : Nat
  y : Nat
deriving DecidableEq

/-- Team shade/color pair of a player (`game::Team`). -/
structure Team where
  shade : Nat
  color : Nat
deriving DecidableEq

/-- UCF toggles (`game::Ucf`); the `dash_back`/`shield_drop` options carry the
`u32` discriminant written by the encoder. -/
structure Ucf where
  dash_back : Option Nat
  shield_drop : Option Nat
deriving DecidableEq

/-- Netplay identity; `name` and `code` are SHIFT_JIS-encoded byte strings. -/
structure Netplay where
  name : List Byte
  code : List Byte
deriving DecidableEq

/-- Per-slot player configuration (`game::Player`), with the fields read by
`game_start`; `name_tag` is a SHIFT_JIS-encoded byte string. -/
structure Player where
  character : Nat
  type : Nat
  stocks : Nat
  costume : Nat
  team : Option Team
  handicap : Nat
  bitfield : Nat
  cpu_level : Option Nat
  offense_ratio : Nat
  defense_ratio : Nat
  model_scale : Nat
  ucf : Option Ucf
  name_tag : Option (List Byte)
  netplay : Option Netplay
  unmapped : List Byte
deriving DecidableEq

/-- Scene id (`game::Scene`). -/
structure Scene where
  minor : Nat
  major : Nat
deriving DecidableEq

/-- The `slippi` sub-record of `game::Start`. -/
structure Slippi where
  version : Version
deriving DecidableEq

/-- Session configuration (`game::Start`), with the fields read by
`game_start`. `unmapped` models the `[u8; 73]` of captured raw bytes whose
slices are interleaved between the mapped fields. -/
structure Start where
  slippi : Slippi
  bitfield : List Byte
  is_raining_bombs : Bool
  is_teams : Bool
  item_spawn_frequency : Int
  self_destruct_score : Int
  stage : Nat
  timer : Nat
  item_spawn_bitfield : List Byte
  damage_ratio : Nat
  players : List Player
  random_seed : Nat
  is_pal : Option Bool
  is_frozen_ps : Option Bool
  scene : Option Scene
  unmapped : List Byte
deriving DecidableEq

/-- Termination record (`game::End`); `lras_initiator` is present only from
version 2.0 (outer option), and may name no port (inner option). -/
structure End where
  method : Nat
  lras_initiator : Option (Option Nat)
deriving DecidableEq

/-- A port number or the `u8::MAX` sentinel for "none". -/
def portOrMax : Option Nat → Byte
  | some p => u8 p
  | none => 0xff

/-- One populated player slot of the base player records in `game_start`
(the body of the `for p in &s.players` loop). -/
def player_bytes (p : Player) : List Byte :=
  [u8 p.character, u8 p.type, u8 p.stocks, u8 p.costume]
    ++ slice p.unmapped 0 3
    ++ [u8 ((p.team.map Team.shade).getD 0), u8 p.handicap,
        u8 ((p.team.map Team.color).getD 0)]
    ++ slice p.unmapped 3 5
    ++ [u8 p.bitfield]
    ++ slice p.unmapped 5 7
    ++ [u8 (p.cpu_level.getD 0)]
    ++ slice p.unmapped 7 11
    ++ be32 p.offense_ratio ++ be32 p.defense_ratio ++ be32 p.model_scale
    ++ slice p.unmapped 11 15

/-- The base player records of the populated slots, in order. -/
def players_base : List Player → List Byte
  | [] => []
  | p :: ps => player_bytes p ++ players_base ps

/-- The zero-filled empty player slots of the base player records
(`[0, 3]` marks player type "empty", then 34 zero bytes). -/
def empty_players : Nat → List Byte
  | 0 => []
  | n + 1 => ([0, 3] ++ List.replicate 34 0) ++ empty_players n

/-- `n` empty per-player slots of `width` zero bytes each, as written by the
`for _ in empty_player_slots` loops of the version-gated trailing sections. -/
def zero_slots : Nat → Nat → List Byte
  | 0, _ => []
  | n + 1, width => List.replicate width 0 ++ zero_slots n width

/-- The fixed (always present) part of the session-start payload: tag byte,
version, build-number placeholder, configuration fields interleaved with raw
`unmapped` slices, base player records padded to `MAX_PLAYERS`, random seed. -/
def start_fixed (s : Start) (ver : Version) : List Byte :=
  [Event.GameStart.code, u8 ver.major, u8 ver.minor, u8 ver.revision, 0]
    ++ s.bitfield
    ++ slice s.unmapped 0 2
    ++ [b8 s.is_raining_bombs]
    ++ slice s.unmapped 2 3
    ++ [b8 s.is_teams]
    ++ slice s.unmapped 3 5
    ++ [i8b s.item_spawn_frequency, i8b s.self_destruct_score]
    ++ slice s.unmapped 5 6
    ++ be16 s.stage
    ++ be32 s.timer
    ++ slice s.unmapped 6 21
    ++ s.item_spawn_bitfield
    ++ slice s.unmapped 21 29
    ++ be32 s.damage_ratio
    ++ slice s.unmapped 29 73
    ++ players_base s.players
    ++ empty_players (MAX_PLAYERS - s.players.length)
    ++ be32 s.random_seed

/-- Sequential fallible emission: the bytes of `f` applied to each element in
order, concatenated; the first error aborts (a `for` loop of `?` writes). -/
def writeEach {α : Type} (f : α → Except EncodeError (List Byte)) :
    List α → Except EncodeError (List Byte)
  | [] => .ok []
  | a :: as => do
    let b ← f a
    let rest ← writeEach f as
    pure (b ++ rest)

/-- One player's UCF record (dash-back then shield-drop, `u32` each);
`p.ucf.unwrap()` panics when absent. -/
def ucf_bytes (p : Player) : Except EncodeError (List Byte) := do
  let u ← unwrapO p.ucf
  pure (be32 (u.dash_back.getD 0) ++ be32 (u.shield_drop.getD 0))

/-- The UCF trailing section (≥ 1.0): per-player records then zero-filled
empty slots of the same 8-byte width. -/
def ucf_section (ps : List Player) (ver : Version) : Except EncodeError (List Byte) :=
  if ver.ge (version 1 0) then do
    let b ← writeEach ucf_bytes ps
    pure (b ++ zero_slots (NUM_PORTS - ps.length) 8)
  else .ok []

/-- The name-tag trailing section (≥ 1.3): 16-byte SHIFT_JIS tags then
zero-filled 16-byte empty slots; `p.name_tag` unwrapped. -/
def name_tags_section (ps : List Player) (ver : Version) : Except EncodeError (List Byte) :=
  if ver.ge (version 1 3) then do
    let b ← writeEach (fun p => do
      let t ← unwrapO p.name_tag
      write_shift_jis t 16 "player.name_tag") ps
    pure (b ++ zero_slots (NUM_PORTS - ps.length) 16)
  else .ok []

/-- The region flag (≥ 1.5); `s.is_pal` unwrapped. -/
def region_section (s : Start) (ver : Version) : Except EncodeError (List Byte) :=
  if ver.ge (version 1 5) then do
    let b ← unwrapO s.is_pal
    pure [b8 b]
  else .ok []

/-- The frozen-stage flag (≥ 2.0); `s.is_frozen_ps` unwrapped. -/
def frozen_section (s : Start) (ver : Version) : Except EncodeError (List Byte) :=
  if ver.ge (version 2 0) then do
    let b ← unwrapO s.is_frozen_ps
    pure [b8 b]
  else .ok []

/-- The scene bytes (≥ 3.7); the source writes `scene.minor` first, then
`scene.major`. -/
def scene_section (s : Start) (ver : Version) : Except EncodeError (List Byte) :=
  if ver.ge (version 3 7) then do
    let sc ← unwrapO s.scene
    pure [u8 sc.minor, u8 sc.major]
  else .ok []

/-- One player's netplay record (31-byte name, 10-byte code);
`p.netplay` unwrapped. -/
def netplay_bytes (p : Player) : Except EncodeError (List Byte) := do
  let n ← unwrapO p.netplay
  let a ← write_shift_jis n.name 31 "player.netplay.name"
  let b ← write_shift_jis n.code 10 "player.netplay.code"
  pure (a ++ b)

/-- The netplay trailing section (≥ 3.9): per-player records then zero-filled
41-byte empty slots. -/
def netplay_section (ps : List Player) (ver : Version) : Except EncodeError (List Byte) :=
  if ver.ge (version 3 9) then do
    let b ← writeEach netplay_bytes ps
    pure (b ++ zero_slots (NUM_PORTS - ps.length) 41)
  else .ok []

/-- The body of `game_start` after its version assertion: the fixed part
followed by the version-gated trailing sections in source order. -/
def game_start_body (s : Start) (ver : Version) : Except EncodeError (List Byte) := do
  let ucf ← ucf_section s.players ver
  let tags ← name_tags_section s.players ver
  let reg ← region_section s ver
  let froz ← frozen_section s ver
  let sc ← scene_section s ver
  let np ← netplay_section s.players ver
  pure (start_fixed s ver ++ ucf ++ tags ++ reg ++ froz ++ sc ++ np)

/-- `game_start`, including the `assert_eq!(ver, s.slippi.version)` at its
top (the panic is modelled as `versionMismatch`). -/
def game_start (s : Start) (ver : Version) : Except EncodeError (List Byte) :=
  if ver = s.slippi.version then game_start_body s ver
  else .error .versionMismatch

/-- `game_end`: tag, method, then (≥ 2.0) the LRAS initiator port or the
all-ones sentinel; `e.lras_initiator` unwrapped. -/
def game_end (e : End) (ver : Version) : Except EncodeError (List Byte) := do
  let l ← if ver.ge (version 2 0) then do
      let p ← unwrapO e.lras_initiator
      pure [portOrMax p]
    else pure []
  pure ([Event.GameEnd.code, u8 e.method] ++ l)

/-- `parse::PortId`: the (frame index, port, follower) key of a Pre/Post record. -/
structure PortId where
  index : Int
  port : Nat
  is_follower : Bool
deriving DecidableEq

/-- Modelled from the spec: `PortId::new` (in `parse.rs`, not part of the
provided source) fails with a validation error when the port number does not
fit the representable port range. -/
def PortId.new (index : Int) (port : Nat) (is_follower : Bool) :
    Except EncodeError PortId :=
  if port < NUM_PORTS then .ok (PortId.mk index port is_follower)
  else .error .portOverflow

/-- `frame::Start`: the frame-start sub-record. -/
structure FStart where
  random_seed : Nat
deriving DecidableEq

/-- `frame::End`: the frame-end sub-record. -/
structure FEnd where
  latest_finalized_frame : Option Int
deriving DecidableEq

/-- Logical/physical trigger values (`f32` bit patterns). -/
structure Triggers where
  logical : Nat
  physical : Vec2
deriving DecidableEq

/-- Logical (`u32`) and physical (`u16`) button bitfields. -/
structure Buttons where
  logical : Nat
  physical : Nat
deriving DecidableEq

/-- `frame::Pre`: the pre-frame snapshot, with the fields read by `frame_pre`.
`direction` is the `f32` bit pattern the `Direction` enum converts into. -/
structure Pre where
  random_seed : Nat
  state : Nat
  position : Vec2
  direction : Nat
  joystick : Vec2
  cstick : Vec2
  triggers : Triggers
  buttons : Buttons
  raw_analog_x : Option Nat
  damage : Option Nat
deriving DecidableEq

/-- Autogenous and knockback velocity components (`f32` bit patterns). -/
structure Velocities where
  autogenous : Vec2
  knockback : Vec2
deriving DecidableEq

/-- `frame::Post`: the post-frame snapshot, with the fields read by
`frame_post`. `l_cancel` is the tri-state `Option<Option<bool>>`. -/
structure Post where
  character : Nat
  state : Nat
  position : Vec2
  direction : Nat
  damage : Nat
  shield : Nat
  last_attack_landed : Option Nat
  combo_count : Nat
  last_hit_by : Option Nat
  stocks : Nat
  state_age : Option Nat
  flags : Option Nat
  misc_as : Option Nat
  airborne : Option Bool
  ground : Option Nat
  jumps : Option Nat
  l_cancel : Option (Option Bool)
  hurtbox_state : Option Nat
  velocities : Option Velocities
  hitlag : Option Nat
deriving DecidableEq

/-- `item::Item`, with the fields read by `item`; `misc` models the
`Option<[u8; 4]>` of raw trailing bytes. -/
structure Item where
  type : Nat
  state : Nat
  direction : Option Nat
  velocity : Vec2
  position : Vec2
  damage : Nat
  timer : Nat
  id : Nat
  misc : Option (List Byte)
  owner : Option (Option Nat)
deriving DecidableEq

/-- `frame_start`: tag, frame index, random seed. -/
def frame_start (s : FStart) (_ver : Version) (frame_idx : Int) :
    Except EncodeError (List Byte) :=
  .ok ([Event.FrameStart.code] ++ beI32 frame_idx ++ be32 s.random_seed)

/-- `frame_pre`: tag, PortId key, then the input snapshot; raw analog byte
from 1.2, damage from 1.4. -/
def frame_pre (p : Pre) (ver : Version) (id : PortId) :
    Except EncodeError (List Byte) := do
  let base := [Event.FramePre.code] ++ beI32 id.index ++ [u8 id.port, b8 id.is_follower]
    ++ be32 p.random_seed ++ be16 p.state
    ++ be32 p.position.x ++ be32 p.position.y ++ be32 p.direction
    ++ be32 p.joystick.x ++ be32 p.joystick.y
    ++ be32 p.cstick.x ++ be32 p.cstick.y
    ++ be32 p.triggers.logical
    ++ be32 p.buttons.logical ++ be16 p.buttons.physical
    ++ be32 p.triggers.physical.x ++ be32 p.triggers.physical.y
  let a ← if ver.ge (version 1 2) then do
      let x ← unwrapO p.raw_analog_x
      pure [u8 x]
    else pure []
  let d ← if ver.ge (version 1 4) then do
      let x ← unwrapO p.damage
      pure (be32 x)
    else pure []
  pure (base ++ a ++ d)

/-- The L-cancel tri-state byte (`Some(true) => 1, Some(false) => 2, _ => 0`). -/
def lCancelByte : Option Bool → Byte
  | some true => 1
  | some false => 2
  | none => 0

/-- The tag, PortId key and fixed state snapshot that `frame_post` always
emits first; the version-gated extensions follow it. The 64-bit flag bitfield is assembled into an 8-byte little-endian
buffer of which only the first five bytes are written (`le40`); every other
multi-byte field is big-endian. At ≥ 3.5 the autogenous X velocity is placed
in the first slot when airborne (fifth slot zero) and in the fifth slot when
grounded (first slot zero). -/
def frame_post_base (p : Post) (id : PortId) : List Byte :=
  [Event.FramePost.code] ++ beI32 id.index ++ [u8 id.port, b8 id.is_follower]
    ++ [u8 p.character] ++ be16 p.state
    ++ be32 p.position.x ++ be32 p.position.y ++ be32 p.direction
    ++ be32 p.damage ++ be32 p.shield
    ++ [u8 (p.last_attack_landed.getD 0), u8 p.combo_count,
        portOrMax p.last_hit_by, u8 p.stocks]

/-- The ≥ 0.2 block of `frame_post`: the 4-byte state-age. -/
def post_v02 (p : Post) (ver : Version) : Except EncodeError (List Byte) :=
  if ver.ge (version 0 2) then do
    let x ← unwrapO p.state_age
    pure (be32 x)
  else .ok []

/-- The ≥ 2.0 block of `frame_post`: five little-endian flag bytes, misc
action-state value, airborne flag, ground id, jump count, L-cancel state. -/
def post_v20 (p : Post) (ver : Version) : Except EncodeError (List Byte) :=
  if ver.ge (version 2 0) then do
    let f ← unwrapO p.flags
    let m ← unwrapO p.misc_as
    let ab ← unwrapO p.airborne
    let gr ← unwrapO p.ground
    let j ← unwrapO p.jumps
    let lc ← unwrapO p.l_cancel
    pure (le40 f ++ be32 m ++ [b8 ab] ++ be16 gr ++ [u8 j, lCancelByte lc])
  else .ok []

/-- The ≥ 2.1 block of `frame_post`: the hurtbox state byte. -/
def post_v21 (p : Post) (ver : Version) : Except EncodeError (List Byte) :=
  if ver.ge (version 2 1) then do
    let hb ← unwrapO p.hurtbox_state
    pure [u8 hb]
  else .ok []

/-- The ≥ 3.5 block of `frame_post`: the five velocity slots, with the
autogenous X component placed first when airborne and fifth when grounded
(the unused slot written as zero). -/
def post_v35 (p : Post) (ver : Version) : Except EncodeError (List Byte) :=
  if ver.ge (version 3 5) then do
    let vel ← unwrapO p.velocities
    let ab ← unwrapO p.airborne
    pure (be32 (if ab then vel.autogenous.x else 0)
      ++ be32 vel.autogenous.y
      ++ be32 vel.knockback.x ++ be32 vel.knockback.y
      ++ be32 (if ab then 0 else vel.autogenous.x))
  else .ok []

/-- The ≥ 3.8 block of `frame_post`: the hitlag value. -/
def post_v38 (p : Post) (ver : Version) : Except EncodeError (List Byte) :=
  if ver.ge (version 3 8) then do
    let h ← unwrapO p.hitlag
    pure (be32 h)
  else .ok []

/-- `frame_post`: `frame_post_base` then the five version-gated blocks. -/
def frame_post (p : Post) (ver : Version) (id : PortId) :
    Except EncodeError (List Byte) := do
  let sa ← post_v02 p ver
  let g20 ← post_v20 p ver
  let g21 ← post_v21 p ver
  let g35 ← post_v35 p ver
  let g38 ← post_v38 p ver
  pure (frame_post_base p id ++ sa ++ g20 ++ g21 ++ g35 ++ g38)

/-- `item`: tag, frame index, the item snapshot, then raw misc bytes from 3.2
and the owner port (or sentinel) from 3.6. -/
def item (i : Item) (ver : Version) (frame_idx : Int) :
    Except EncodeError (List Byte) := do
  let base := [Event.Item.code] ++ beI32 frame_idx
    ++ be16 i.type ++ [u8 i.state]
    ++ be32 (i.direction.getD 0)
    ++ be32 i.velocity.x ++ be32 i.velocity.y
    ++ be32 i.position.x ++ be32 i.position.y
    ++ be16 i.damage ++ be32 i.timer ++ be32 i.id
  let m ← if ver.ge (version 3 2) then do
      let mb ← unwrapO i.misc
      pure mb
    else pure []
  let o ← if ver.ge (version 3 6) then do
      let ow ← unwrapO i.owner
      pure [portOrMax ow]
    else pure []
  pure (base ++ m ++ o)

/-- `frame_end`: tag, frame index, then (≥ 3.7) the latest finalized frame. -/
def frame_end (e : FEnd) (ver : Version) (frame_idx : Int) :
    Except EncodeError (List Byte) := do
  let l ← if ver.ge (version 3 7) then do
      let x ← unwrapO e.latest_finalized_frame
      pure (beI32 x)
    else pure []
  pure ([Event.FrameEnd.code] ++ beI32 frame_idx ++ l)

/-- Leader or follower data of one port: the Pre and Post sub-records. -/
structure Data where
  pre : Pre
  post : Post
deriving DecidableEq

/-- One port slot of a frame: the leader and an optional follower. -/
structure PortData where
  leader : Data
  follower : Option Data
deriving DecidableEq

/-- One simulation tick (`frame::Frame<N>`); `ports` models the `[PortData; N]`
array (its length is fixed by the game's `Frames` variant). -/
structure Frame where
  ports : List PortData
  start : Option FStart
  «end» : Option FEnd
  items : Option (List Item)
deriving DecidableEq

/-- The follower's pre-record write of one port slot, when a follower exists
(the first `if let Some(follower)` of the port loop). -/
def follower_pre (ver : Version) (idx : Int) (port_idx : Nat) :
    Option Data → Except EncodeError (List Byte)
  | some fo => do
    let pidf ← PortId.new idx port_idx true
    frame_pre fo.pre ver pidf
  | none => .ok []

/-- The follower's post-record write of one port slot, when a follower exists
(the second `if let Some(follower)` of the port loop). -/
def follower_post (ver : Version) (idx : Int) (port_idx : Nat) :
    Option Data → Except EncodeError (List Byte)
  | some fo => do
    let pidf ← PortId.new idx port_idx true
    frame_post fo.post ver pidf
  | none => .ok []

/-- The port loop inside `frames`: for each port slot in order — leader pre,
follower pre (if any), leader post, follower post (if any) — with the running
`port_idx` threaded through. -/
def ports_go (ver : Version) (idx : Int) : Nat → List PortData →
    Except EncodeError (List Byte)
  | _, [] => .ok []
  | port_idx, pd :: rest => do
    let pid ← PortId.new idx port_idx false
    let a ← frame_pre pd.leader.pre ver pid
    let b ← follower_pre ver idx port_idx pd.follower
    let pid2 ← PortId.new idx port_idx false
    let c ← frame_post pd.leader.post ver pid2
    let d ← follower_post ver idx port_idx pd.follower
    let r ← ports_go ver idx (port_idx + 1) rest
    pure (a ++ b ++ c ++ d ++ r)

/-- The gated frame-start write of the frame loop (≥ 2.2); `f.start`
unwrapped. -/
def fb_start (f : Frame) (ver : Version) (idx : Int) :
    Except EncodeError (List Byte) :=
  if ver.ge (version 2 2) then do
    let s ← unwrapO f.start
    frame_start s ver idx
  else .ok []

/-- The gated item writes of the frame loop (≥ 3.0): all items of the frame
in original list order; `f.items` unwrapped. -/
def fb_items (f : Frame) (ver : Version) (idx : Int) :
    Except EncodeError (List Byte) :=
  if ver.ge (version 3 0) then do
    let is_ ← unwrapO f.items
    writeEach (fun i => item i ver idx) is_
  else .ok []

/-- The gated frame-end write of the frame loop (≥ 3.0); `f.end` unwrapped. -/
def fb_end (f : Frame) (ver : Version) (idx : Int) :
    Except EncodeError (List Byte) :=
  if ver.ge (version 3 0) then do
    let e ← unwrapO f.«end»
    frame_end e ver idx
  else .ok []

/-- The body of one iteration of the frame loop: optional frame-start
(≥ 2.2), the port loop, then (≥ 3.0) all items in order and the frame-end. -/
def frame_bytes (f : Frame) (ver : Version) (idx : Int) :
    Except EncodeError (List Byte) := do
  let st ← fb_start f ver idx
  let ps ← ports_go ver idx 0 f.ports
  let its ← fb_items f ver idx
  let en ← fb_end f ver idx
  pure (st ++ ps ++ its ++ en)

/-- The frame loop with its running `frame_idx`, incremented once per frame. -/
def frames_go (ver : Version) : List Frame → Int → Except EncodeError (List Byte)
  | [], _ => .ok []
  | f :: fs, idx => do
    let b ← frame_bytes f ver idx
    let rest ← frames_go ver fs (idx + 1)
    pure (b ++ rest)

/-- `frames`: the frame stream, iterated from `FIRST_FRAME_INDEX`. -/
def frames (fl : List Frame) (ver : Version) : Except EncodeError (List Byte) :=
  frames_go ver fl FIRST_FRAME_INDEX

/-- `game::Frames`: the port-count-polymorphic frame collection. -/
inductive Frames where
  | P1 (fl : List Frame)
  | P2 (fl : List Frame)
  | P3 (fl : List Frame)
  | P4 (fl : List Frame)
deriving DecidableEq

/-- The root aggregate (`game::Game`); `metadata_raw` abstracts the generic
metadata value tree as the byte sequence `ubjson::unparse_map` produces for it
(`ubjson.rs` is not part of the provided source). -/
structure Game where
  start : Start
  «end» : End
  frames : Frames
  metadata_raw : List Byte
deriving DecidableEq

/-- Modelled from the spec: `ubjson::unparse_map` recursively encodes the
metadata value tree; the tree is abstracted as its encoded bytes. -/
def ubjson_unparse_map (m : List Byte) : List Byte := m

/-- The fixed 11-byte magic prologue of the envelope. -/
def raw_header : List Byte :=
  [0x7b, 0x55, 0x03, 0x72, 0x61, 0x77, 0x5b, 0x24, 0x55, 0x23, 0x6c]

/-- The fixed 11-byte metadata-block prologue. -/
def metadata_header : List Byte :=
  [0x55, 0x08, 0x6d, 0x65, 0x74, 0x61, 0x64, 0x61, 0x74, 0x61, 0x7b]

/-- The serialized entries of the payload-sizes meta-event, in the given
iteration order: per event a 1-byte code and a 2-byte size. -/
def payloadEntries (ver : Version) : List Event → List Byte
  | [] => []
  | e :: rest => ([e.code] ++ be16 ((payload_sizes ver e).getD 0)) ++ payloadEntries ver rest

/-- `unparse`, the top-level entry point. The iteration order of the
`payload_sizes` `HashMap` is unspecified in Rust, so it is taken here as the
explicit parameter `order` (any permutation of `payloadKeys`): magic prologue,
zero length placeholder, the payload-sizes meta-event in that order, the
session-start event, the frame stream, the session-end event, and the
metadata block. Every version gate uses `game.start.slippi.version`. -/
def unparse (order : List Event) (g : Game) : Except EncodeError (List Byte) := do
  let gs ← game_start g.start g.start.slippi.version
  let fr ← match g.frames with
    | .P1 fl => frames fl g.start.slippi.version
    | .P2 fl => frames fl g.start.slippi.version
    | .P3 fl => frames fl g.start.slippi.version
    | .P4 fl => frames fl g.start.slippi.version
  let ge ← game_end g.«end» g.start.slippi.version
  pure (raw_header ++ be32 0
    ++ [PAYLOADS_EVENT_CODE, u8 (payloadKeys.length * 3 + 1)]
    ++ payloadEntries g.start.slippi.version order
    ++ gs ++ fr ++ ge
    ++ metadata_header ++ ubjson_unparse_map g.metadata_raw ++ [0x7d, 0x7d])

/-- `unparse` with `game_start`'s version assertion removed: the session-start
event is encoded directly by `game_start_body`. -/
def unparse_direct (order : List Event) (g : Game) : Except EncodeError (List Byte) := do
  let gs ← game_start_body g.start g.start.slippi.version
  let fr ← match g.frames with
    | .P1 fl => frames fl g.start.slippi.version
    | .P2 fl => frames fl g.start.slippi.version
    | .P3 fl => frames fl g.start.slippi.version
    | .P4 fl => frames fl g.start.slippi.version
  let ge ← game_end g.«end» g.start.slippi.version
  pure (raw_header ++ be32 0
    ++ [PAYLOADS_EVENT_CODE, u8 (payloadKeys.length * 3 + 1)]
    ++ payloadEntries g.start.slippi.version order
    ++ gs ++ fr ++ ge
    ++ metadata_header ++ ubjson_unparse_map g.metadata_raw ++ [0x7d, 0x7d])

/-- C1: "For every version v, the payload-size table built once per game maps
each event kind to the exact version-dependent payload width given by the
threshold list: post-frame is 33 bytes below 0.2, 37 from 0.2, 51 from 2.0,
52 from 2.1, 72 from 3.5, 76 from 3.8; pre-frame is 58 below 1.2, 59 from
1.2, 63 from 1.4; item is 37 from 3.0, 41 from 3.2, 42 from 3.6; frame-end is
4 from 3.0, 8 from 3.7." — The code does NOT do this: `payload_sizes` ignores
its version argument entirely and returns one fixed table; at version
(1,0,0) it reports post-frame 72 (the claim requires 37) and pre-frame 63
(the claim requires 59). -/
theorem c1_payload_sizes_ignore_version :
    (∀ v₁ v₂ : Version, payload_sizes v₁ = payload_sizes v₂) ∧
    payload_sizes (Version.mk 1 0 0) Event.FramePost = some 72 ∧
    payload_sizes (Version.mk 1 0 0) Event.FramePre = some 63 := by
  refine ⟨fun v₁ v₂ => ?_, rfl, rfl⟩
  funext e
  cases e <;> rfl

/-- C2: "the payload-size table ... contains frame-start if and only if
v >= 2.2, and contains frame-end and item if and only if v >= 3.0 (so for
v = (1,0,0) the serialized meta-event declares exactly four event kinds)."
— The code does NOT do this: at version (1,0,0) the table still contains
frame-start (size 8), and it contains all seven event kinds, not four. -/
theorem c2_payload_sizes_always_seven :
    payload_sizes (Version.mk 1 0 0) Event.FrameStart = some 8 ∧
    (∀ e : Event, (payload_sizes (Version.mk 1 0 0) e).isSome = true) ∧
    payloadKeys.length = 7 := by
  refine ⟨rfl, fun e => ?_, rfl⟩
  cases e <;> rfl

/-- C9: for every text field with a fixed byte budget, an encoded byte length
above the budget is a fatal error carrying the field's label (no bytes of the
field are produced, no truncation); otherwise the encoded bytes are written
followed by zero bytes up to exactly the budget. -/
theorem c9_shift_jis_budget (s : List Byte) (max_size : Nat) (label : String) :
    (max_size < s.length →
      write_shift_jis s max_size label = .error (.textOverflow label)) ∧
    (s.length ≤ max_size →
      write_shift_jis s max_size label = .ok (s ++ List.replicate (max_size - s.length) 0) ∧
      (s ++ List.replicate (max_size - s.length) 0).length = max_size) := by
  constructor
  · intro h
    rw [write_shift_jis, if_pos h]
  · intro h
    have hn : ¬ s.length > max_size := not_lt.mpr h
    rw [write_shift_jis, if_neg hn]
    refine ⟨rfl, ?_⟩
    simp [List.length_append, List.length_replicate]
    omega

/-- Witness for C9 at the name-tag budget of 16 bytes: a 17-byte encoded tag
is rejected with the field's label, a 3-byte one is zero-padded to exactly 16. -/
theorem c9_shift_jis_budget_witness :
    write_shift_jis (List.replicate 17 65) 16 "player.name_tag" =
      .error (.textOverflow "player.name_tag") ∧
    (write_shift_jis [1, 2, 3] 16 "player.name_tag" =
      .ok ([1, 2, 3] ++ List.replicate (16 - [1, 2, 3].length) 0) ∧
    ([1, 2, 3] ++ List.replicate (16 - [1, 2, 3].length) 0).length = 16) :=
  ⟨(c9_shift_jis_budget (List.replicate 17 65) 16 "player.name_tag").1 (by decide),
   (c9_shift_jis_budget [1, 2, 3] 16 "player.name_tag").2 (by decide)⟩

/-- C10: through the public entry point one single version — the one in the
game's Start record — drives every version-gating decision, and the
`assert_eq!(ver, s.slippi.version)` at the top of `game_start` always holds
there: `unparse` behaves exactly as if the assertion were removed (the
`versionMismatch` branch is unreachable from the entry point). -/
theorem c10_unparse_assert_passes (order : List Event) (g : Game) :
    unparse order g = unparse_direct order g := by
  simp [unparse, unparse_direct, game_start]

/-- A minimal version-(0,1,0) session configuration (no version-gated
sections, no players), used as a concrete encodable input. -/
def exStart01 : Start where
  slippi := Slippi.mk (Version.mk 0 1 0)
  bitfield := [0, 0, 0]
  is_raining_bombs := false
  is_teams := false
  item_spawn_frequency := 0
  self_destruct_score := 0
  stage := 0
  timer := 0
  item_spawn_bitfield := [0, 0, 0, 0, 0]
  damage_ratio := 0
  players := []
  random_seed := 0
  is_pal := none
  is_frozen_ps := none
  scene := none
  unmapped := List.replicate 73 0

/-- A minimal version-(0,1,0) game with no frames. -/
def exGame01 : Game where
  start := exStart01
  «end» := End.mk 0 none
  frames := Frames.P1 []
  metadata_raw := []

/-- The insertion order with its first two entries swapped: another possible
iteration order of the `payload_sizes` `HashMap`. -/
def payloadKeysSwapped : List Event :=
  [.FramePre, .GameStart, .FramePost, .GameEnd, .FrameStart, .Item, .FrameEnd]

/-- Counterexample to C3 ("any two invocations of the top-level encode on the
same model produce byte-identical output streams, including the order of the
entries inside the payload-size meta-event"): the entries are emitted by
iterating a Rust `HashMap`, whose iteration order is unspecified and varies
between invocations. For the same concrete game, the iteration order
`payloadKeys` puts byte `0x36` at offset 17 of the stream while the equally
possible order `payloadKeysSwapped` puts `0x37` there, so the two outputs are
not byte-identical. -/
theorem c3_order_dependence_counterexample :
    (unparse payloadKeys exGame01).map (fun bs => bs.get? 17) = .ok (some 0x36) ∧
    (unparse payloadKeysSwapped exGame01).map (fun bs => bs.get? 17) = .ok (some 0x37) :=
  ⟨rfl, rfl⟩

/-- The envelope bytes before the payload-size entries: magic prologue,
zero length placeholder, meta-event tag and count byte (17 bytes). -/
def meta_head : List Byte :=
  raw_header ++ be32 0 ++ [PAYLOADS_EVENT_CODE, u8 (payloadKeys.length * 3 + 1)]

/-- Everything of the output stream except the 21 bytes of payload-size
entries (offsets 17-37), which a `HashMap` iteration may emit in any order. -/
def eraseMeta (bs : List Byte) : List Byte := bs.take 17 ++ bs.drop 38

theorem payloadEntries_length (ver : Version) (order : List Event) :
    (payloadEntries ver order).length = 3 * order.length := by
  induction order with
  | nil => rfl
  | cons e rest ih =>
    simp only [payloadEntries, List.length_append, List.length_cons, ih, be16,
      List.length_nil, List.length_singleton]
    omega

theorem eraseMeta_envelope (E r : List Byte) (hE : E.length = 21) :
    eraseMeta (raw_header ++ (be32 0 ++
        (PAYLOADS_EVENT_CODE :: u8 (payloadKeys.length * 3 + 1) :: (E ++ r)))) =
      meta_head ++ r := by
  have regroup : raw_header ++ (be32 0 ++
      (PAYLOADS_EVENT_CODE :: u8 (payloadKeys.length * 3 + 1) :: (E ++ r))) =
      meta_head ++ (E ++ r) := by
    simp [meta_head, List.append_assoc]
  have h17 : meta_head.length = 17 := rfl
  rw [regroup]
  unfold eraseMeta
  rw [List.take_left' h17]
  rw [show (38 : Nat) = 17 + 21 from rfl, ← List.drop_drop,
    List.drop_left' h17, List.drop_left' hE]

theorem unparse_order_irrel (ver : Version) (o₁ o₂ : List Event)
    (len₁ : (payloadEntries ver o₁).length = 21)
    (len₂ : (payloadEntries ver o₂).length = 21)
    (m₁ m₂ m₃ : Except EncodeError (List Byte)) (meta : List Byte) :
    Except.map eraseMeta (do
      let gs ← m₁
      let fr ← m₂
      let ge ← m₃
      pure (raw_header ++ be32 0
        ++ [PAYLOADS_EVENT_CODE, u8 (payloadKeys.length * 3 + 1)]
        ++ payloadEntries ver o₁
        ++ gs ++ fr ++ ge
        ++ metadata_header ++ ubjson_unparse_map meta ++ [0x7d, 0x7d])) =
    Except.map eraseMeta (do
      let gs ← m₁
      let fr ← m₂
      let ge ← m₃
      pure (raw_header ++ be32 0
        ++ [PAYLOADS_EVENT_CODE, u8 (payloadKeys.length * 3 + 1)]
        ++ payloadEntries ver o₂
        ++ gs ++ fr ++ ge
        ++ metadata_header ++ ubjson_unparse_map meta ++ [0x7d, 0x7d])) := by
  cases m₁ <;> cases m₂ <;> cases m₃ <;>
    simp only [Bind.bind, Except.bind, Except.map, pure, Except.pure,
      List.append_assoc, List.cons_append, List.nil_append]
  rw [eraseMeta_envelope _ _ len₁, eraseMeta_envelope _ _ len₂]

/-- C3 amended: encoding is deterministic up to the unspecified iteration
order of the payload-size map — for any two iteration orders (permutations of
the inserted keys) the outputs agree on every byte outside the payload-size
entry region (offsets 17-37), and on the error outcome. -/
theorem c3_deterministic_outside_meta (g : Game) (o₁ o₂ : List Event)
    (h₁ : o₁.Perm payloadKeys) (h₂ : o₂.Perm payloadKeys) :
    (unparse o₁ g).map eraseMeta = (unparse o₂ g).map eraseMeta := by
  obtain ⟨s, e, f, m⟩ := g
  have len₁ : (payloadEntries s.slippi.version o₁).length = 21 := by
    rw [payloadEntries_length, h₁.length_eq]; rfl
  have len₂ : (payloadEntries s.slippi.version o₂).length = 21 := by
    rw [payloadEntries_length, h₂.length_eq]; rfl
  cases f with
  | P1 fl =>
    exact unparse_order_irrel s.slippi.version o₁ o₂ len₁ len₂
      (game_start s s.slippi.version) (frames fl s.slippi.version)
      (game_end e s.slippi.version) m
  | P2 fl =>
    exact unparse_order_irrel s.slippi.version o₁ o₂ len₁ len₂
      (game_start s s.slippi.version) (frames fl s.slippi.version)
      (game_end e s.slippi.version) m
  | P3 fl =>
    exact unparse_order_irrel s.slippi.version o₁ o₂ len₁ len₂
      (game_start s s.slippi.version) (frames fl s.slippi.version)
      (game_end e s.slippi.version) m
  | P4 fl =>
    exact unparse_order_irrel s.slippi.version o₁ o₂ len₁ len₂
      (game_start s s.slippi.version) (frames fl s.slippi.version)
      (game_end e s.slippi.version) m

/-- Witness for the amended C3 at two concrete iteration orders of the
payload-size table and the concrete game `exGame01`. -/
theorem c3_deterministic_outside_meta_witness :
    (unparse payloadKeys exGame01).map eraseMeta =
      (unparse payloadKeysSwapped exGame01).map eraseMeta :=
  c3_deterministic_outside_meta exGame01 payloadKeys payloadKeysSwapped
    (List.Perm.refl payloadKeys) (by decide)

/-- Inversion of a successful `Except` bind: the first action succeeded and
the continuation succeeded on its result. -/
theorem bind_ok {α β : Type} {m : Except EncodeError α}
    {k : α → Except EncodeError β} {b : β} (h : (m >>= k) = .ok b) :
    ∃ a, m = .ok a ∧ k a = .ok b := by
  cases m with
  | ok a => exact ⟨a, rfl, h⟩
  | error er => exact absurd h (by simp [Bind.bind, Except.bind])

/-- A version-(3,7,0) session configuration with no players and scene
minor 1 / major 2, used as a concrete encodable input. -/
def exStart37 : Start where
  slippi := Slippi.mk (Version.mk 3 7 0)
  bitfield := [0, 0, 0]
  is_raining_bombs := false
  is_teams := false
  item_spawn_frequency := 0
  self_destruct_score := 0
  stage := 0
  timer := 0
  item_spawn_bitfield := [0, 0, 0, 0, 0]
  damage_ratio := 0
  players := []
  random_seed := 0
  is_pal := some false
  is_frozen_ps := some false
  scene := some (Scene.mk 1 2)
  unmapped := List.replicate 73 0

/-- The session-start payload of `exStart37` at version (3,7,0). -/
def exBs37 : List Byte :=
  (game_start exStart37 (Version.mk 3 7 0)).toOption.getD []

set_option maxRecDepth 20000 in
/-- Counterexample to C5 ("the session-start encoder emits the scene bytes in
the order major then minor"): at version (3,7,0) — where the scene pair is
the last section of the payload — with scene minor 1 and major 2, the final
two payload bytes are `[1, 2]`, i.e. minor first, not `[2, 1]` as the claim
requires. -/
theorem c5_scene_order_counterexample :
    exStart37.scene = some (Scene.mk 1 2) ∧
    (game_start exStart37 (Version.mk 3 7 0)).map
        (fun bs => bs.drop (bs.length - 2)) = .ok [1, 2] :=
  ⟨rfl, rfl⟩

/-- C5 amended: at versions ≥ 3.7 the session-start encoder emits the scene
bytes in the order minor then major; below 3.9 they are the final two bytes
of the payload. -/
theorem c5_scene_minor_then_major (s : Start) (ver : Version) (sc : Scene)
    (bs : List Byte) (hver : ver.ge (version 3 7) = true)
    (hsc : s.scene = some sc) (hok : game_start s ver = .ok bs) :
    ∃ pre post, bs = pre ++ [u8 sc.minor, u8 sc.major] ++ post ∧
      (ver.ge (version 3 9) = false → post = []) := by
  by_cases hv : ver = s.slippi.version
  case neg =>
    rw [game_start, if_neg hv] at hok
    exact absurd hok (by simp)
  rw [game_start, if_pos hv] at hok
  unfold game_start_body at hok
  obtain ⟨ucf, hucf, hok⟩ := bind_ok hok
  obtain ⟨tags, htags, hok⟩ := bind_ok hok
  obtain ⟨reg, hreg, hok⟩ := bind_ok hok
  obtain ⟨froz, hfroz, hok⟩ := bind_ok hok
  obtain ⟨scb, hscb, hok⟩ := bind_ok hok
  obtain ⟨np, hnp, hok⟩ := bind_ok hok
  have hbs : bs = start_fixed s ver ++ ucf ++ tags ++ reg ++ froz ++ scb ++ np := by
    simpa [pure, Except.pure] using hok.symm
  have hscv : scb = [u8 sc.minor, u8 sc.major] := by
    rw [scene_section, if_pos hver, hsc] at hscb
    simpa [unwrapO, Bind.bind, Except.bind, pure, Except.pure] using hscb.symm
  refine ⟨start_fixed s ver ++ ucf ++ tags ++ reg ++ froz, np, ?_, ?_⟩
  · rw [hbs, hscv]
  · intro h39
    rw [netplay_section, h39] at hnp
    simpa using hnp.symm

/-- Witness for the amended C5 at the concrete version-(3,7,0) input. -/
theorem c5_scene_minor_then_major_witness :
    ∃ pre post, exBs37 = pre ++ [u8 1, u8 2] ++ post ∧
      ((Version.mk 3 7 0).ge (version 3 9) = false → post = []) :=
  c5_scene_minor_then_major exStart37 (Version.mk 3 7 0) (Scene.mk 1 2) exBs37
    (by decide) rfl rfl

/-- Lexicographic `>=` on versions is transitive. -/
theorem Version.ge_trans {v t w : Version} (h₁ : Version.ge v t = true)
    (h₂ : Version.ge t w = true) : Version.ge v w = true := by
  rw [Version.ge_iff] at h₁ h₂ ⊢
  omega

theorem frame_post_base_length (p : Post) (id : PortId) :
    (frame_post_base p id).length = 34 := by
  simp [frame_post_base, beI32, be32, be16]

/-- Successful-`frame_post` decomposition at versions ≥ 2.0: the output is
the fixed 34-byte prefix, the 4-byte state-age, the five flag bytes, the
4-byte misc action-state value, airborne/ground/jumps/L-cancel, and a
version-dependent remainder. -/
theorem frame_post_decomp_20 (p : Post) (ver : Version) (id : PortId)
    (bs : List Byte) (hver : ver.ge (version 2 0) = true)
    (hok : frame_post p ver id = .ok bs) :
    ∃ x f m ab gr j lc rest,
      p.flags = some f ∧ p.misc_as = some m ∧ p.airborne = some ab ∧
      bs = frame_post_base p id ++ be32 x ++ le40 f ++ be32 m
        ++ [b8 ab] ++ be16 gr ++ [u8 j, lCancelByte lc] ++ rest := by
  have h02 : ver.ge (version 0 2) = true :=
    Version.ge_trans hver (by decide)
  unfold frame_post at hok
  obtain ⟨sa, hsa, hok⟩ := bind_ok hok
  obtain ⟨g20, hg20, hok⟩ := bind_ok hok
  obtain ⟨g21, hg21, hok⟩ := bind_ok hok
  obtain ⟨g35, hg35, hok⟩ := bind_ok hok
  obtain ⟨g38, hg38, hok⟩ := bind_ok hok
  have hbs : bs = frame_post_base p id ++ sa ++ g20 ++ g21 ++ g35 ++ g38 := by
    simpa [pure, Except.pure] using hok.symm
  rw [post_v02, if_pos h02] at hsa
  obtain ⟨x, hx, hsa⟩ := bind_ok hsa
  have hsav : sa = be32 x := by simpa [pure, Except.pure] using hsa.symm
  rw [post_v20, if_pos hver] at hg20
  obtain ⟨f, hf, hg20⟩ := bind_ok hg20
  obtain ⟨m, hm, hg20⟩ := bind_ok hg20
  obtain ⟨ab, hab, hg20⟩ := bind_ok hg20
  obtain ⟨gr, hgr, hg20⟩ := bind_ok hg20
  obtain ⟨j, hj, hg20⟩ := bind_ok hg20
  obtain ⟨lc, hlc, hg20⟩ := bind_ok hg20
  have hg20v : g20 = le40 f ++ be32 m ++ [b8 ab] ++ be16 gr ++ [u8 j, lCancelByte lc] := by
    simpa [pure, Except.pure] using hg20.symm
  have hfv : p.flags = some f := by
    cases hpf : p.flags with
    | some f₂ =>
      rw [hpf] at hf
      have : f₂ = f := by simpa [unwrapO] using hf
      rw [this]
    | none => rw [hpf] at hf; simp [unwrapO] at hf
  have hmv : p.misc_as = some m := by
    cases hpm : p.misc_as with
    | some m₂ =>
      rw [hpm] at hm
      have : m₂ = m := by simpa [unwrapO] using hm
      rw [this]
    | none => rw [hpm] at hm; simp [unwrapO] at hm
  have habv : p.airborne = some ab := by
    cases hpa : p.airborne with
    | some a₂ =>
      rw [hpa] at hab
      have : a₂ = ab := by simpa [unwrapO] using hab
      rw [this]
    | none => rw [hpa] at hab; simp [unwrapO] at hab
  refine ⟨x, f, m, ab, gr, j, lc, g21 ++ g35 ++ g38, hfv, hmv, habv, ?_⟩
  rw [hbs, hsav, hg20v]
  simp [List.append_assoc]

/-- C7: at versions ≥ 2.0 the post-frame encoder emits, for the 64-bit flag
bitfield, exactly the five bytes at offsets 38-42, equal to the low five
bytes of the flags value in little-endian byte order, while the surrounding
multi-byte fields are big-endian (the frame index at offsets 1-4, the state
id at offsets 8-9, the misc action-state value at offsets 43-46). -/
theorem c7_flags_little_endian_low5 (p : Post) (ver : Version) (id : PortId)
    (bs : List Byte) (f : Nat) (hver : ver.ge (version 2 0) = true)
    (hf : p.flags = some f) (hok : frame_post p ver id = .ok bs) :
    (bs.drop 38).take 5 = [f % 2 ^ 8, f / 2 ^ 8 % 2 ^ 8, f / 2 ^ 16 % 2 ^ 8,
        f / 2 ^ 24 % 2 ^ 8, f / 2 ^ 32 % 2 ^ 8] ∧
    (bs.drop 1).take 4 = beI32 id.index ∧
    (bs.drop 8).take 2 = be16 p.state ∧
    (bs.drop 43).take 4 = be32 (p.misc_as.getD 0) := by
  obtain ⟨x, f₂, m, ab, gr, j, lc, rest, hf₂, hm, hab, hbs⟩ :=
    frame_post_decomp_20 p ver id bs hver hok
  have hff : f₂ = f := by
    rw [hf] at hf₂
    exact (Option.some.inj hf₂).symm
  rw [hff] at hbs
  refine ⟨?_, ?_, ?_, ?_⟩ <;>
    · rw [hbs]
      simp [frame_post_base, beI32, be32, be16, le40, hm]

/-- A concrete post-frame record with every field required at version 2.0
present, and flags value `0x0102030405`. -/
def exPost20 : Post where
  character := 0
  state := 0x0102
  position := Vec2.mk 0 0
  direction := 0
  damage := 0
  shield := 0
  last_attack_landed := none
  combo_count := 0
  last_hit_by := none
  stocks := 4
  state_age := some 0
  flags := some 0x0102030405
  misc_as := some 0x3f800000
  airborne := some false
  ground := some 0
  jumps := some 2
  l_cancel := some none
  hurtbox_state := none
  velocities := none
  hitlag := none

/-- A concrete PortId key. -/
def exPortId : PortId := PortId.mk (-123) 0 false

/-- The bytes `frame_post` emits for `exPost20` at version (2,0,0). -/
def exPost20Bytes : List Byte :=
  (frame_post exPost20 (Version.mk 2 0 0) exPortId).toOption.getD []

/-- Witness for C7: a concrete version-(2,0,0) post-frame record whose flags
value `0x0102030405` is emitted at offsets 38-42 as `[5, 4, 3, 2, 1]` —
little-endian low five bytes — while its neighbours are big-endian. -/
theorem c7_flags_little_endian_low5_witness :
    (exPost20Bytes.drop 38).take 5 = [0x0102030405 % 2 ^ 8,
        0x0102030405 / 2 ^ 8 % 2 ^ 8, 0x0102030405 / 2 ^ 16 % 2 ^ 8,
        0x0102030405 / 2 ^ 24 % 2 ^ 8, 0x0102030405 / 2 ^ 32 % 2 ^ 8] ∧
    (exPost20Bytes.drop 1).take 4 = beI32 exPortId.index ∧
    (exPost20Bytes.drop 8).take 2 = be16 exPost20.state ∧
    (exPost20Bytes.drop 43).take 4 = be32 (exPost20.misc_as.getD 0) :=
  c7_flags_little_endian_low5 exPost20 (Version.mk 2 0 0) exPortId
    exPost20Bytes 0x0102030405 (by decide) rfl rfl

/-- C8: at versions ≥ 3.5, the first of the five velocity slots (offsets
53-56 of the post-frame event) carries the autogenous X component when the
entity is airborne and 0.0 when grounded, and the fifth slot (offsets 69-72)
carries 0.0 when airborne and the autogenous X component when grounded. -/
theorem c8_velocity_slots (p : Post) (ver : Version) (id : PortId)
    (bs : List Byte) (vel : Velocities) (ab : Bool)
    (hver : ver.ge (version 3 5) = true)
    (hvel : p.velocities = some vel) (hab : p.airborne = some ab)
    (hok : frame_post p ver id = .ok bs) :
    (bs.drop 53).take 4 = be32 (if ab then vel.autogenous.x else 0) ∧
    (bs.drop 69).take 4 = be32 (if ab then 0 else vel.autogenous.x) := by
  have h02 : ver.ge (version 0 2) = true := Version.ge_trans hver (by decide)
  have h20 : ver.ge (version 2 0) = true := Version.ge_trans hver (by decide)
  have h21 : ver.ge (version 2 1) = true := Version.ge_trans hver (by decide)
  unfold frame_post at hok
  obtain ⟨sa, hsa, hok⟩ := bind_ok hok
  obtain ⟨g20, hg20, hok⟩ := bind_ok hok
  obtain ⟨g21, hg21, hok⟩ := bind_ok hok
  obtain ⟨g35, hg35, hok⟩ := bind_ok hok
  obtain ⟨g38, hg38, hok⟩ := bind_ok hok
  have hbs : bs = frame_post_base p id ++ sa ++ g20 ++ g21 ++ g35 ++ g38 := by
    simpa [pure, Except.pure] using hok.symm
  rw [post_v02, if_pos h02] at hsa
  obtain ⟨x, hx, hsa⟩ := bind_ok hsa
  have hsav : sa = be32 x := by simpa [pure, Except.pure] using hsa.symm
  rw [post_v20, if_pos h20] at hg20
  obtain ⟨f, hf, hg20⟩ := bind_ok hg20
  obtain ⟨mm, hmm, hg20⟩ := bind_ok hg20
  obtain ⟨ab₂, hab₂, hg20⟩ := bind_ok hg20
  obtain ⟨gr, hgr, hg20⟩ := bind_ok hg20
  obtain ⟨j, hj, hg20⟩ := bind_ok hg20
  obtain ⟨lc, hlc, hg20⟩ := bind_ok hg20
  have hg20v : g20 = le40 f ++ be32 mm ++ [b8 ab₂] ++ be16 gr
      ++ [u8 j, lCancelByte lc] := by
    simpa [pure, Except.pure] using hg20.symm
  rw [post_v21, if_pos h21] at hg21
  obtain ⟨hb, hhb, hg21⟩ := bind_ok hg21
  have hg21v : g21 = [u8 hb] := by simpa [pure, Except.pure] using hg21.symm
  rw [post_v35, if_pos hver] at hg35
  obtain ⟨vel₂, hvel₂, hg35⟩ := bind_ok hg35
  obtain ⟨ab₃, hab₃, hg35⟩ := bind_ok hg35
  rw [hvel] at hvel₂
  have hvelv : vel = vel₂ := by simpa [unwrapO] using hvel₂
  subst hvelv
  rw [hab] at hab₃
  have habv : ab = ab₃ := by simpa [unwrapO] using hab₃
  subst habv
  have hg35v : g35 = be32 (if ab then vel.autogenous.x else 0)
      ++ be32 vel.autogenous.y ++ be32 vel.knockback.x ++ be32 vel.knockback.y
      ++ be32 (if ab then 0 else vel.autogenous.x) := by
    simpa [pure, Except.pure] using hg35.symm
  constructor <;>
    · rw [hbs, hsav, hg20v, hg21v, hg35v]
      simp [frame_post_base, beI32, be32, be16, le40]

/-- A concrete airborne post-frame record at version (3,9,0) with autogenous
velocity (2.0, -1.0) — bit patterns 0x40000000 and 0xbf800000. -/
def exPostAir39 : Post where
  character := 0
  state := 0
  position := Vec2.mk 0 0
  direction := 0x3f800000
  damage := 0
  shield := 0
  last_attack_landed := none
  combo_count := 0
  last_hit_by := none
  stocks := 4
  state_age := some 0
  flags := some 0
  misc_as := some 0
  airborne := some true
  ground := some 0
  jumps := some 1
  l_cancel := some none
  hurtbox_state := some 0
  velocities := some (Velocities.mk (Vec2.mk 0x40000000 0xbf800000) (Vec2.mk 0 0))
  hitlag := some 0

/-- The same record but grounded. -/
def exPostGnd39 : Post := { exPostAir39 with airborne := some false }

/-- The bytes `frame_post` emits for the airborne record at (3,9,0). -/
def exPostAir39Bytes : List Byte :=
  (frame_post exPostAir39 (Version.mk 3 9 0) exPortId).toOption.getD []

/-- The bytes `frame_post` emits for the grounded record at (3,9,0). -/
def exPostGnd39Bytes : List Byte :=
  (frame_post exPostGnd39 (Version.mk 3 9 0) exPortId).toOption.getD []

/-- Witness for C8, matching the claim's concrete scenario at (3,9,0) with
autogenous velocity (2.0, -1.0): airborne emits first slot 2.0 (0x40000000)
and fifth slot 0.0; grounded emits first slot 0.0 and fifth slot 2.0. -/
theorem c8_velocity_slots_witness :
    ((exPostAir39Bytes.drop 53).take 4 = be32 0x40000000 ∧
     (exPostAir39Bytes.drop 69).take 4 = be32 0) ∧
    ((exPostGnd39Bytes.drop 53).take 4 = be32 0 ∧
     (exPostGnd39Bytes.drop 69).take 4 = be32 0x40000000) :=
  ⟨c8_velocity_slots exPostAir39 (Version.mk 3 9 0) exPortId exPostAir39Bytes
      (Velocities.mk (Vec2.mk 0x40000000 0xbf800000) (Vec2.mk 0 0)) true
      (by decide) rfl rfl rfl,
   c8_velocity_slots exPostGnd39 (Version.mk 3 9 0) exPortId exPostGnd39Bytes
      (Velocities.mk (Vec2.mk 0x40000000 0xbf800000) (Vec2.mk 0 0)) false
      (by decide) rfl rfl rfl⟩

theorem slice_length {u : List Byte} {a b : Nat} (h : b ≤ u.length) (hab : a ≤ b) :
    (slice u a b).length = b - a := by
  simp [slice]
  omega

theorem player_bytes_length {p : Player} (h : p.unmapped.length = 15) :
    (player_bytes p).length = 36 := by
  simp [player_bytes, be32, slice]
  omega

theorem players_base_length {ps : List Player}
    (h : ∀ p ∈ ps, p.unmapped.length = 15) :
    (players_base ps).length = 36 * ps.length := by
  induction ps with
  | nil => rfl
  | cons p rest ih =>
    have hp : p.unmapped.length = 15 := h p (List.mem_cons_self p rest)
    have hr := ih (fun q hq => h q (List.mem_cons_of_mem p hq))
    simp [players_base, player_bytes_length hp, hr]
    ring

theorem empty_players_length (n : Nat) : (empty_players n).length = 36 * n := by
  induction n with
  | zero => rfl
  | succ k ih =>
    simp [empty_players, ih]
    ring

theorem zero_slots_length (n w : Nat) : (zero_slots n w).length = n * w := by
  induction n with
  | zero => simp [zero_slots]
  | succ k ih =>
    simp [zero_slots, ih]
    ring

theorem start_fixed_length_eq (s : Start) (ps₂ : List Player) (v : Version)
    (hP₁ : s.players.length ≤ MAX_PLAYERS) (hP₂ : ps₂.length ≤ MAX_PLAYERS)
    (hu₁ : ∀ p ∈ s.players, p.unmapped.length = 15)
    (hu₂ : ∀ p ∈ ps₂, p.unmapped.length = 15) :
    (start_fixed s v).length = (start_fixed {s with players := ps₂} v).length := by
  have e₁ := players_base_length hu₁
  have e₂ := players_base_length hu₂
  have f₁ := empty_players_length (MAX_PLAYERS - s.players.length)
  have f₂ := empty_players_length (MAX_PLAYERS - ps₂.length)
  simp only [start_fixed, List.length_append] at e₁ e₂ f₁ f₂ ⊢
  rw [e₁, e₂, f₁, f₂]
  unfold MAX_PLAYERS at hP₁ hP₂ ⊢
  omega

theorem write_shift_jis_ok_length {t : List Byte} {n : Nat} {label : String}
    {b : List Byte} (h : write_shift_jis t n label = .ok b) : b.length = n := by
  by_cases hl : t.length > n
  · rw [write_shift_jis, if_pos hl] at h
    exact absurd h (by simp)
  · rw [write_shift_jis, if_neg hl] at h
    have : t ++ List.replicate (n - t.length) 0 = b := by simpa using h
    rw [← this]
    simp
    omega

theorem writeEach_ok_length {α : Type} {f : α → Except EncodeError (List Byte)}
    {w : Nat} (hf : ∀ a b, f a = .ok b → b.length = w) :
    ∀ {as : List α} {L : List Byte}, writeEach f as = .ok L → L.length = w * as.length := by
  intro as
  induction as with
  | nil =>
    intro L h
    have : ([] : List Byte) = L := by simpa [writeEach] using h
    rw [← this]
    simp
  | cons a rest ih =>
    intro L h
    rw [writeEach] at h
    obtain ⟨b, hb, h⟩ := bind_ok h
    obtain ⟨r, hr, h⟩ := bind_ok h
    have : b ++ r = L := by simpa [pure, Except.pure] using h
    rw [← this]
    simp [hf a b hb, ih hr]
    ring

theorem ucf_bytes_ok_length {p : Player} {b : List Byte}
    (h : ucf_bytes p = .ok b) : b.length = 8 := by
  rw [ucf_bytes] at h
  obtain ⟨u, hu, h⟩ := bind_ok h
  have : be32 (u.dash_back.getD 0) ++ be32 (u.shield_drop.getD 0) = b := by
    simpa [pure, Except.pure] using h
  rw [← this]
  simp [be32]

theorem name_tag_ok_length {p : Player} {b : List Byte}
    (h : (do
      let t ← unwrapO p.name_tag
      write_shift_jis t 16 "player.name_tag") = .ok b) : b.length = 16 := by
  obtain ⟨t, ht, h⟩ := bind_ok h
  exact write_shift_jis_ok_length h

theorem netplay_bytes_ok_length {p : Player} {b : List Byte}
    (h : netplay_bytes p = .ok b) : b.length = 41 := by
  rw [netplay_bytes] at h
  obtain ⟨n, hn, h⟩ := bind_ok h
  obtain ⟨a, ha, h⟩ := bind_ok h
  obtain ⟨c, hc, h⟩ := bind_ok h
  have : a ++ c = b := by simpa [pure, Except.pure] using h
  rw [← this]
  have h31 := write_shift_jis_ok_length ha
  have h10 := write_shift_jis_ok_length hc
  simp [h31, h10]

theorem ucf_section_ok_length {ps : List Player} {v : Version} {b : List Byte}
    (hP : ps.length ≤ NUM_PORTS) (h : ucf_section ps v = .ok b) :
    b.length = if v.ge (version 1 0) then 32 else 0 := by
  rw [ucf_section] at h
  by_cases hg : v.ge (version 1 0) = true
  · rw [if_pos hg] at h
    rw [if_pos hg]
    obtain ⟨L, hL, h⟩ := bind_ok h
    have : L ++ zero_slots (NUM_PORTS - ps.length) 8 = b := by
      simpa [pure, Except.pure] using h
    rw [← this]
    have := writeEach_ok_length (fun a b hab => ucf_bytes_ok_length hab) hL
    simp [this, zero_slots_length]
    unfold NUM_PORTS at hP ⊢
    omega
  · rw [if_neg hg] at h
    rw [if_neg hg]
    have : ([] : List Byte) = b := by simpa using h
    rw [← this]
    rfl

theorem name_tags_section_ok_length {ps : List Player} {v : Version} {b : List Byte}
    (hP : ps.length ≤ NUM_PORTS) (h : name_tags_section ps v = .ok b) :
    b.length = if v.ge (version 1 3) then 64 else 0 := by
  rw [name_tags_section] at h
  by_cases hg : v.ge (version 1 3) = true
  · rw [if_pos hg] at h
    rw [if_pos hg]
    obtain ⟨L, hL, h⟩ := bind_ok h
    have : L ++ zero_slots (NUM_PORTS - ps.length) 16 = b := by
      simpa [pure, Except.pure] using h
    rw [← this]
    have := writeEach_ok_length (fun a b hab => name_tag_ok_length hab) hL
    simp [this, zero_slots_length]
    unfold NUM_PORTS at hP ⊢
    omega
  · rw [if_neg hg] at h
    rw [if_neg hg]
    have : ([] : List Byte) = b := by simpa using h
    rw [← this]
    rfl

theorem netplay_section_ok_length {ps : List Player} {v : Version} {b : List Byte}
    (hP : ps.length ≤ NUM_PORTS) (h : netplay_section ps v = .ok b) :
    b.length = if v.ge (version 3 9) then 164 else 0 := by
  rw [netplay_section] at h
  by_cases hg : v.ge (version 3 9) = true
  · rw [if_pos hg] at h
    rw [if_pos hg]
    obtain ⟨L, hL, h⟩ := bind_ok h
    have : L ++ zero_slots (NUM_PORTS - ps.length) 41 = b := by
      simpa [pure, Except.pure] using h
    rw [← this]
    have := writeEach_ok_length (fun a b hab => netplay_bytes_ok_length hab) hL
    simp [this, zero_slots_length]
    unfold NUM_PORTS at hP ⊢
    omega
  · rw [if_neg hg] at h
    rw [if_neg hg]
    have : ([] : List Byte) = b := by simpa using h
    rw [← this]
    rfl

/-- C6: at a fixed version, the session-start payload has the same total
byte length for every actual player count not exceeding the port count —
each empty slot is zero-filled to the same per-slot width as a populated
slot in the base records and in every trailing per-player section. -/
theorem c6_padding_invariant (s : Start) (ps₂ : List Player) (v : Version)
    (hP₁ : s.players.length ≤ NUM_PORTS) (hP₂ : ps₂.length ≤ NUM_PORTS)
    (hu₁ : ∀ p ∈ s.players, p.unmapped.length = 15)
    (hu₂ : ∀ p ∈ ps₂, p.unmapped.length = 15)
    (b₁ b₂ : List Byte)
    (h₁ : game_start s v = .ok b₁)
    (h₂ : game_start {s with players := ps₂} v = .ok b₂) :
    b₁.length = b₂.length := by
  by_cases hv : v = s.slippi.version
  case neg =>
    rw [game_start, if_neg hv] at h₁
    exact absurd h₁ (by simp)
  rw [game_start, if_pos hv] at h₁
  rw [game_start,
    if_pos (show v = ({s with players := ps₂} : Start).slippi.version from hv)] at h₂
  unfold game_start_body at h₁ h₂
  obtain ⟨u₁, hu₁', h₁⟩ := bind_ok h₁
  obtain ⟨t₁, ht₁, h₁⟩ := bind_ok h₁
  obtain ⟨r₁, hr₁, h₁⟩ := bind_ok h₁
  obtain ⟨z₁, hz₁, h₁⟩ := bind_ok h₁
  obtain ⟨c₁, hc₁, h₁⟩ := bind_ok h₁
  obtain ⟨n₁, hn₁, h₁⟩ := bind_ok h₁
  have hb₁ : b₁ = start_fixed s v ++ u₁ ++ t₁ ++ r₁ ++ z₁ ++ c₁ ++ n₁ := by
    simpa [pure, Except.pure] using h₁.symm
  obtain ⟨u₂, hu₂', h₂⟩ := bind_ok h₂
  obtain ⟨t₂, ht₂, h₂⟩ := bind_ok h₂
  obtain ⟨r₂, hr₂, h₂⟩ := bind_ok h₂
  obtain ⟨z₂, hz₂, h₂⟩ := bind_ok h₂
  obtain ⟨c₂, hc₂, h₂⟩ := bind_ok h₂
  obtain ⟨n₂, hn₂, h₂⟩ := bind_ok h₂
  have hb₂ : b₂ = start_fixed {s with players := ps₂} v
      ++ u₂ ++ t₂ ++ r₂ ++ z₂ ++ c₂ ++ n₂ := by
    simpa [pure, Except.pure] using h₂.symm
  have hP₁' : s.players.length ≤ MAX_PLAYERS := by
    unfold NUM_PORTS at hP₁
    unfold MAX_PLAYERS
    omega
  have hP₂' : ps₂.length ≤ MAX_PLAYERS := by
    unfold NUM_PORTS at hP₂
    unfold MAX_PLAYERS
    omega
  have hsf := start_fixed_length_eq s ps₂ v hP₁' hP₂' hu₁ hu₂
  have hul₁ := ucf_section_ok_length hP₁ hu₁'
  have hul₂ := ucf_section_ok_length hP₂ hu₂'
  have htl₁ := name_tags_section_ok_length hP₁ ht₁
  have htl₂ := name_tags_section_ok_length hP₂ ht₂
  have hnl₁ := netplay_section_ok_length hP₁ hn₁
  have hnl₂ := netplay_section_ok_length hP₂ hn₂
  have hreg : r₁ = r₂ := by
    have : region_section {s with players := ps₂} v = region_section s v := rfl
    rw [this, hr₁] at hr₂
    exact Except.ok.inj hr₂
  have hfroz : z₁ = z₂ := by
    have : frozen_section {s with players := ps₂} v = frozen_section s v := rfl
    rw [this, hz₁] at hz₂
    exact Except.ok.inj hz₂
  have hscene : c₁ = c₂ := by
    have : scene_section {s with players := ps₂} v = scene_section s v := rfl
    rw [this, hc₁] at hc₂
    exact Except.ok.inj hc₂
  rw [hb₁, hb₂]
  simp only [List.length_append]
  rw [hsf, hul₁, hul₂, htl₁, htl₂, hnl₁, hnl₂, hreg, hfroz, hscene]

/-- A concrete human player slot with UCF settings (all a version-(1,0,0)
game requires). -/
def exPlayer : Player where
  character := 2
  type := 0
  stocks := 4
  costume := 0
  team := none
  handicap := 9
  bitfield := 0
  cpu_level := none
  offense_ratio := 0
  defense_ratio := 0
  model_scale := 0x3f800000
  ucf := some (Ucf.mk (some 1) (some 0))
  name_tag := none
  netplay := none
  unmapped := List.replicate 15 0

/-- A version-(1,0,0) session configuration with one player. -/
def exStart10 : Start where
  slippi := Slippi.mk (Version.mk 1 0 0)
  bitfield := [0, 0, 0]
  is_raining_bombs := false
  is_teams := false
  item_spawn_frequency := 0
  self_destruct_score := 0
  stage := 8
  timer := 480
  item_spawn_bitfield := [0, 0, 0, 0, 0]
  damage_ratio := 0x3f800000
  players := [exPlayer]
  random_seed := 0
  is_pal := none
  is_frozen_ps := none
  scene := none
  unmapped := List.replicate 73 0

/-- The session-start payload of `exStart10` (one player). -/
def exS10Bytes1 : List Byte :=
  (game_start exStart10 (Version.mk 1 0 0)).toOption.getD []

/-- The session-start payload of `exStart10` with its player list emptied. -/
def exS10Bytes0 : List Byte :=
  (game_start {exStart10 with players := []} (Version.mk 1 0 0)).toOption.getD []

set_option maxRecDepth 40000 in
/-- Witness for C6: at version (1,0,0) the session-start payload has the same
length with one player as with zero players. -/
theorem c6_padding_invariant_witness : exS10Bytes1.length = exS10Bytes0.length :=
  c6_padding_invariant exStart10 [] (Version.mk 1 0 0)
    (by decide) (by decide) (by decide) (by decide)
    exS10Bytes1 exS10Bytes0 rfl rfl

/-- An abstract frame event, for stating the spec's per-frame event order.
The frame-start and frame-end events carry the model's optional records, so
that a missing record fails exactly where the encoder's unwrap fails. -/
inductive FrameEvent where
  | fstart (s : Option FStart)
  | fpre (port : Nat) (follower : Bool) (p : Pre)
  | fpost (port : Nat) (follower : Bool) (p : Post)
  | fitem (i : Item)
  | fend (e : Option FEnd)
deriving DecidableEq

/-- The bytes of one abstract frame event, via the per-event encoders. -/
def specEventBytes (ver : Version) (idx : Int) :
    FrameEvent → Except EncodeError (List Byte)
  | .fstart o => do
    let s ← unwrapO o
    frame_start s ver idx
  | .fpre port follower p => do
    let pid ← PortId.new idx port follower
    frame_pre p ver pid
  | .fpost port follower p => do
    let pid ← PortId.new idx port follower
    frame_post p ver pid
  | .fitem i => item i ver idx
  | .fend o => do
    let e ← unwrapO o
    frame_end e ver idx

/-- Modelled from the spec: "for each port slot in declared order — leader
pre, optional follower pre, leader post, optional follower post (both
pre-records for a port precede both post-records for that port)". -/
def specPortEvents : Nat → List PortData → List FrameEvent
  | _, [] => []
  | k, pd :: rest =>
    [FrameEvent.fpre k false pd.leader.pre]
      ++ (match pd.follower with
          | some fo => [FrameEvent.fpre k true fo.pre]
          | none => [])
      ++ [FrameEvent.fpost k false pd.leader.post]
      ++ (match pd.follower with
          | some fo => [FrameEvent.fpost k true fo.post]
          | none => [])
      ++ specPortEvents (k + 1) rest

/-- Modelled from the spec: the event order of one frame — frame-start if and
only if version ≥ 2.2; then the port events; then, if version ≥ 3.0, all
items of the frame in original list order; then, if version ≥ 3.0, the
frame-end event. -/
def specFrameEvents (ver : Version) (f : Frame) : List FrameEvent :=
  (if ver.ge (version 2 2) then [FrameEvent.fstart f.start] else [])
    ++ specPortEvents 0 f.ports
    ++ (if ver.ge (version 3 0) then (f.items.getD []).map FrameEvent.fitem else [])
    ++ (if ver.ge (version 3 0) then [FrameEvent.fend f.«end»] else [])

/-- Modelled from the spec: "iterates frames starting at a fixed first-frame
index, strictly increasing by one per frame", each frame emitting its
`specFrameEvents` in order. -/
def frames_spec_go (ver : Version) : List Frame → Int → Except EncodeError (List Byte)
  | [], _ => .ok []
  | f :: fs, idx => do
    let b ← writeEach (specEventBytes ver idx) (specFrameEvents ver f)
    let rest ← frames_spec_go ver fs (idx + 1)
    pure (b ++ rest)

/-- The spec-side frame stream: `specFrameEvents` frame by frame from
`FIRST_FRAME_INDEX`. -/
def frames_spec (fl : List Frame) (ver : Version) : Except EncodeError (List Byte) :=
  frames_spec_go ver fl FIRST_FRAME_INDEX

theorem writeEach_singleton {α : Type} (f : α → Except EncodeError (List Byte))
    (a : α) : writeEach f [a] = f a := by
  cases h : f a <;> simp [writeEach, h, Bind.bind, Except.bind, pure, Except.pure]

theorem writeEach_append {α : Type} (f : α → Except EncodeError (List Byte))
    (l₁ l₂ : List α) :
    writeEach f (l₁ ++ l₂) = (do
      let a ← writeEach f l₁
      let b ← writeEach f l₂
      pure (a ++ b)) := by
  induction l₁ with
  | nil =>
    cases hw : writeEach f l₂ <;>
      simp [writeEach, Bind.bind, Except.bind, pure, Except.pure, hw]
  | cons a rest ih =>
    cases hfa : f a
    case error e =>
      simp [writeEach, Bind.bind, Except.bind, pure, Except.pure, hfa]
    case ok b =>
      cases hr : writeEach f rest
      case error e =>
        simp [writeEach, Bind.bind, Except.bind, pure, Except.pure, hfa, hr, ih]
      case ok r =>
        cases h2 : writeEach f l₂ <;>
          simp [writeEach, Bind.bind, Except.bind, pure, Except.pure, hfa, hr, ih, h2,
            List.append_assoc]

theorem writeEach_map {α β : Type} (f : β → Except EncodeError (List Byte))
    (g : α → β) (l : List α) :
    writeEach f (l.map g) = writeEach (fun a => f (g a)) l := by
  induction l with
  | nil => rfl
  | cons a rest ih => simp [writeEach, ih]

/-- The source port loop equals the spec-side port event sequence, encoded
event by event. -/
theorem ports_go_spec (ver : Version) (idx : Int) (pds : List PortData) :
    ∀ k : Nat,
      ports_go ver idx k pds = writeEach (specEventBytes ver idx) (specPortEvents k pds) := by
  induction pds with
  | nil => intro k; rfl
  | cons pd rest ih =>
    intro k
    rw [ports_go, specPortEvents]
    cases hfo : pd.follower with
    | none =>
      cases hnew : PortId.new idx k false with
      | error e =>
        simp [writeEach, specEventBytes, follower_pre, follower_post, hnew,
          Bind.bind, Except.bind, pure, Except.pure]
      | ok pid =>
        cases hpre : frame_pre pd.leader.pre ver pid with
        | error e =>
          simp [writeEach, specEventBytes, follower_pre, follower_post, hnew, hpre,
            Bind.bind, Except.bind, pure, Except.pure]
        | ok a =>
          cases hpost : frame_post pd.leader.post ver pid with
          | error e =>
            simp [writeEach, specEventBytes, follower_pre, follower_post, hnew, hpre,
              hpost, Bind.bind, Except.bind, pure, Except.pure]
          | ok c =>
            cases hrest : writeEach (specEventBytes ver idx)
                (specPortEvents (k + 1) rest) with
            | error e =>
              simp [writeEach, specEventBytes, follower_pre, follower_post, hnew,
                hpre, hpost, ih, hrest, Bind.bind, Except.bind, pure, Except.pure]
            | ok r =>
              simp [writeEach, specEventBytes, follower_pre, follower_post, hnew,
                hpre, hpost, ih, hrest, Bind.bind, Except.bind, pure, Except.pure,
                List.append_assoc]
    | some fo =>
      cases hnew : PortId.new idx k false with
      | error e =>
        simp [writeEach, specEventBytes, follower_pre, follower_post, hnew,
          Bind.bind, Except.bind, pure, Except.pure]
      | ok pid =>
        cases hpre : frame_pre pd.leader.pre ver pid with
        | error e =>
          simp [writeEach, specEventBytes, follower_pre, follower_post, hnew, hpre,
            Bind.bind, Except.bind, pure, Except.pure]
        | ok a =>
          cases hnewt : PortId.new idx k true with
          | error e =>
            simp [writeEach, specEventBytes, follower_pre, follower_post, hnew,
              hpre, hnewt, Bind.bind, Except.bind, pure, Except.pure]
          | ok pidf =>
            cases hpref : frame_pre fo.pre ver pidf with
            | error e =>
              simp [writeEach, specEventBytes, follower_pre, follower_post, hnew,
                hpre, hnewt, hpref, Bind.bind, Except.bind, pure, Except.pure]
            | ok b =>
              cases hpost : frame_post pd.leader.post ver pid with
              | error e =>
                simp [writeEach, specEventBytes, follower_pre, follower_post, hnew,
                  hpre, hnewt, hpref, hpost, Bind.bind, Except.bind, pure, Except.pure]
              | ok c =>
                cases hpostf : frame_post fo.post ver pidf with
                | error e =>
                  simp [writeEach, specEventBytes, follower_pre, follower_post,
                    hnew, hpre, hnewt, hpref, hpost, hpostf,
                    Bind.bind, Except.bind, pure, Except.pure]
                | ok d =>
                  cases hrest : writeEach (specEventBytes ver idx)
                      (specPortEvents (k + 1) rest) with
                  | error e =>
                    simp [writeEach, specEventBytes, follower_pre, follower_post,
                      hnew, hpre, hnewt, hpref, hpost, hpostf, ih, hrest,
                      Bind.bind, Except.bind, pure, Except.pure]
                  | ok r =>
                    simp [writeEach, specEventBytes, follower_pre, follower_post,
                      hnew, hpre, hnewt, hpref, hpost, hpostf, ih, hrest,
                      Bind.bind, Except.bind, pure, Except.pure, List.append_assoc]

/-- One frame of the source loop equals the spec-side event sequence of that
frame, encoded event by event (the items list must be present whenever the
version requires it, as the model invariant demands). -/
theorem frame_bytes_spec (f : Frame) (ver : Version) (idx : Int)
    (hitems : ver.ge (version 3 0) = true → f.items.isSome = true) :
    frame_bytes f ver idx =
      writeEach (specEventBytes ver idx) (specFrameEvents ver f) := by
  have hA : writeEach (specEventBytes ver idx)
      (if ver.ge (version 2 2) then [FrameEvent.fstart f.start] else []) =
      fb_start f ver idx := by
    by_cases hg : ver.ge (version 2 2) = true
    · rw [if_pos hg, writeEach_singleton, fb_start, if_pos hg]
      rfl
    · rw [if_neg hg, fb_start, if_neg hg]
      rfl
  have hC : writeEach (specEventBytes ver idx)
      (if ver.ge (version 3 0) then (f.items.getD []).map FrameEvent.fitem else []) =
      fb_items f ver idx := by
    by_cases hg : ver.ge (version 3 0) = true
    · obtain ⟨l, hl⟩ := Option.isSome_iff_exists.mp (hitems hg)
      rw [if_pos hg, hl, fb_items, if_pos hg, hl]
      simp [unwrapO, writeEach_map, specEventBytes, Bind.bind, Except.bind]
    · rw [if_neg hg, fb_items, if_neg hg]
      rfl
  have hD : writeEach (specEventBytes ver idx)
      (if ver.ge (version 3 0) then [FrameEvent.fend f.«end»] else []) =
      fb_end f ver idx := by
    by_cases hg : ver.ge (version 3 0) = true
    · rw [if_pos hg, writeEach_singleton, fb_end, if_pos hg]
      rfl
    · rw [if_neg hg, fb_end, if_neg hg]
      rfl
  rw [frame_bytes, specFrameEvents, writeEach_append, writeEach_append,
    writeEach_append, hA, hC, hD, ← ports_go_spec ver idx f.ports 0]
  cases h1 : fb_start f ver idx <;>
    cases h2 : ports_go ver idx 0 f.ports <;>
      cases h3 : fb_items f ver idx <;>
        cases h4 : fb_end f ver idx <;>
          simp [h1, h2, h3, h4, Bind.bind, Except.bind, pure, Except.pure,
            List.append_assoc]

theorem frames_go_spec (ver : Version) (fl : List Frame) :
    ∀ idx : Int,
      (∀ f ∈ fl, ver.ge (version 3 0) = true → f.items.isSome = true) →
      frames_go ver fl idx = frames_spec_go ver fl idx := by
  induction fl with
  | nil =>
    intro idx h
    rfl
  | cons f fs ih =>
    intro idx h
    rw [frames_go, frames_spec_go,
      frame_bytes_spec f ver idx (h f (List.mem_cons_self f fs)),
      ih (idx + 1) (fun g hg => h g (List.mem_cons_of_mem f hg))]

/-- C4: the frame stream emits, for every game and every frame, exactly the
spec's event order — frame-start if and only if version ≥ 2.2; then for each
port slot in declared order the leader pre-record, the follower pre-record
when a follower exists, the leader post-record, the follower post-record
when a follower exists; then, from 3.0, all items of the frame in original
list order; then, from 3.0, the frame-end event — while the frame indices
start at `FIRST_FRAME_INDEX` and increase by exactly one per frame
(`frames_spec` is the literal transcription of the spec's ordering). The
hypothesis is the model invariant that the items list is present whenever
the version requires it. -/
theorem c4_frame_stream_order (fl : List Frame) (ver : Version)
    (hitems : ∀ f ∈ fl, ver.ge (version 3 0) = true → f.items.isSome = true) :
    frames fl ver = frames_spec fl ver :=
  frames_go_spec ver fl FIRST_FRAME_INDEX hitems

/-- A concrete pre-frame record with every field required at version 3.9. -/
def exPre39 : Pre where
  random_seed := 0
  state := 14
  position := Vec2.mk 0 0
  direction := 0x3f800000
  joystick := Vec2.mk 0 0
  cstick := Vec2.mk 0 0
  triggers := Triggers.mk 0 (Vec2.mk 0 0)
  buttons := Buttons.mk 0 0
  raw_analog_x := some 0
  damage := some 0

/-- A concrete item with every field required at version 3.9. -/
def exItem39 : Item where
  type := 0
  state := 0
  direction := some 0x3f800000
  velocity := Vec2.mk 0 0
  position := Vec2.mk 0 0
  damage := 0
  timer := 0
  id := 0
  misc := some [0, 0, 0, 0]
  owner := some (some 0)

/-- A concrete version-3.9 frame: one port, no follower, frame-start, one
item, frame-end. -/
def exFrame39 : Frame where
  ports := [PortData.mk (Data.mk exPre39 exPostAir39) none]
  start := some (FStart.mk 42)
  «end» := some (FEnd.mk (some (-123)))
  items := some [exItem39]

/-- Witness for C4 at a concrete one-frame version-(3,9,0) game. -/
theorem c4_frame_stream_order_witness :
    frames [exFrame39] (Version.mk 3 9 0) = frames_spec [exFrame39] (Version.mk 3 9 0) :=
  c4_frame_stream_order [exFrame39] (Version.mk 3 9 0) (by decide)

end Peppi
